import Mathlib

/-!
# Verification of the xl direct driver (`nova/virt/xl/driver.py`)

A shallow embedding of `XLDirectDriver` from the repository's single source
file.  External effects (spawning a subprocess) are made explicit: each
operation is a pure function of the outcome of the external command it runs
(the process's exit code and captured stdout/stderr, or a failure to start
the process at all), mirroring the Python control flow line by line.
Python exceptions are modelled with `Except`.
-/

/-- Named characters, so the development never needs a character literal. -/
def nlChar : Char := Char.ofNat 10

/-- The single-quote character (codepoint 39). -/
def sqChar : Char := Char.ofNat 39

/-- The single-quote character as a one-character string. -/
def sqStr : String := String.singleton sqChar

/-- The Python exceptions that can cross the boundaries modelled here.
`calledProcessError` is `subprocess.CalledProcessError` (carries the exit
code and the captured stderr), `osError` covers `FileNotFoundError` /
`PermissionError` raised when a process cannot be started, `novaException`
is `exception.NovaException(msg)`, `instanceNotFound` is
`exception.InstanceNotFound(instance_id=...)`, `indexError` is a bare
`IndexError` from indexing an empty list, `valueError` is the `ValueError`
of `int()` on a non-numeric string. -/
inductive PyExc where
  | calledProcessError (returncode : Nat) (stderr : String)
  | osError (msg : String)
  | novaException (msg : String)
  | instanceNotFound (instance_id : String)
  | indexError
  | valueError
deriving DecidableEq, Repr

instance {ε α : Type} [DecidableEq ε] [DecidableEq α] : DecidableEq (Except ε α) := fun x y =>
  match x, y with
  | .error e₁, .error e₂ =>
    if h : e₁ = e₂ then .isTrue (by rw [h]) else .isFalse (fun hc => by cases hc; exact h rfl)
  | .ok a₁, .ok a₂ =>
    if h : a₁ = a₂ then .isTrue (by rw [h]) else .isFalse (fun hc => by cases hc; exact h rfl)
  | .error _, .ok _ => .isFalse (fun hc => by cases hc)
  | .ok _, .error _ => .isFalse (fun hc => by cases hc)

/-- Model of `subprocess.CompletedProcess` restricted to the fields the driver uses:
the exit code and the captured text streams. -/
structure CompletedProcess where
  returncode : Nat
  stdout : String
  stderr : String
deriving DecidableEq, Repr

/-- The outcome of asking the operating system to run one external command:
either the process ran to completion with some exit code and captured
output, or it could not be started at all (binary missing, permission
denied), in which case `subprocess.run` raises an `OSError`. -/
inductive RunOutcome where
  | completed (returncode : Nat) (stdout : String) (stderr : String)
  | startFailure (msg : String)
deriving DecidableEq, Repr

/-- Model of `subprocess.run(..., check=True)`: a zero exit returns the
`CompletedProcess`, a non-zero exit raises `CalledProcessError` (carrying
the return code and stderr), and a process that cannot be started raises
`OSError`. -/
def pyRunCheck : RunOutcome → Except PyExc CompletedProcess
  | .completed 0 out err => .ok ⟨0, out, err⟩
  | .completed (c + 1) _ err => .error (.calledProcessError (c + 1) err)
  | .startFailure m => .error (.osError m)

/-- Embedding of `XLDirectDriver._execute_xl`: runs the xl command via
`subprocess.run(..., check=True)`; `except subprocess.CalledProcessError as
e: raise exception.NovaException(e.stderr)` rewraps a non-zero exit (and
only that case) into a `NovaException` carrying the stderr text. -/
def execute_xl (o : RunOutcome) : Except PyExc CompletedProcess :=
  match pyRunCheck o with
  | .ok r => .ok r
  | .error (.calledProcessError _ err) => .error (.novaException err)
  | .error e => .error e

/-- Nova's canonical power-state enum, restricted to the members the driver
can produce. -/
inductive PowerState where
  | NOSTATE
  | RUNNING
  | PAUSED
  | SHUTDOWN
  | CRASHED
deriving DecidableEq, Repr

/-- Embedding of `POWER_STATE_MAP.get(state, power_state.NOSTATE)`: the module-level
dict `POWER_STATE_MAP` read with `.get` and default `NOSTATE`. -/
def POWER_STATE_MAP_get (s : String) : PowerState :=
  if s = ("running") then .RUNNING
  else if s = ("blocked") then .RUNNING
  else if s = ("paused") then .PAUSED
  else if s = ("shutdown") then .SHUTDOWN
  else if s = ("crashed") then .CRASHED
  else if s = ("dying") then .CRASHED
  else .NOSTATE

/-- Embedding of `XLDirectDriver.reboot`: the xl command line the reboot operation
issues, as the argument list handed to `_execute_xl`.  The code branches on
`reboot_type == 'SOFT'` only. -/
def reboot_cmd (reboot_type : String) (name : String) : List String :=
  if reboot_type = ("SOFT") then [("reboot"), name] else [("reset"), name]

/-- What `XLDirectDriver.destroy` did before returning: both fields record
whether the corresponding external command was invoked. -/
structure DestroyTrace where
  destroyCmdAttempted : Bool
  rmAttempted : Bool
deriving DecidableEq, Repr

/-- Embedding of `XLDirectDriver.destroy`, as a function of the outcomes of its two
external commands.  The `xl destroy` call sits in `try ... except
Exception`, so every failure of it is swallowed; the `rm -rf` teardown
(run only when `destroy_disks`) sits in `try ... except
subprocess.CalledProcessError`, so a non-zero exit of `rm` is swallowed
but an `OSError` starting `rm` would propagate. -/
def destroy (destroyOut : RunOutcome) (rmOut : RunOutcome) (destroy_disks : Bool) :
    Except PyExc DestroyTrace :=
  -- try: self._execute_xl('destroy', ...) except Exception: LOG.warning
  match execute_xl destroyOut with
  | _ =>
    if destroy_disks then
      match pyRunCheck rmOut with
      | .ok _ => .ok ⟨true, true⟩
      | .error (.calledProcessError _ _) => .ok ⟨true, true⟩
      | .error e => .error e
    else
      .ok ⟨true, false⟩

theorem pyRunCheck_completed_zero (out err : String) :
    pyRunCheck (.completed 0 out err) = .ok ⟨0, out, err⟩ := rfl

/-- C1: the canonical power-state mapping is total: the six known tokens
map to RUNNING, RUNNING, PAUSED, SHUTDOWN, CRASHED, CRASHED and every
other token maps to NOSTATE; no input makes the lookup fail. -/
theorem power_state_map_total :
    POWER_STATE_MAP_get ("running") = .RUNNING ∧
    POWER_STATE_MAP_get ("blocked") = .RUNNING ∧
    POWER_STATE_MAP_get ("paused") = .PAUSED ∧
    POWER_STATE_MAP_get ("shutdown") = .SHUTDOWN ∧
    POWER_STATE_MAP_get ("crashed") = .CRASHED ∧
    POWER_STATE_MAP_get ("dying") = .CRASHED ∧
    ∀ s : String,
      s ∉ [("running"), ("blocked"), ("paused"), ("shutdown"), ("crashed"), ("dying")] →
      POWER_STATE_MAP_get s = .NOSTATE := by
  refine ⟨rfl, rfl, rfl, rfl, rfl, rfl, ?_⟩
  intro s hs
  simp only [List.mem_cons, List.mem_singleton, not_or] at hs
  obtain ⟨h1, h2, h3, h4, h5, h6, -⟩ := hs
  simp [POWER_STATE_MAP_get, h1, h2, h3, h4, h5, h6]

/-- Witness for C1: the unknown token maps to NOSTATE at a concrete
input. -/
theorem power_state_map_total_witness :
    POWER_STATE_MAP_get ("zombie") = .NOSTATE :=
  power_state_map_total.2.2.2.2.2.2 ("zombie") (by decide)

/-- C10: only the exact string SOFT issues the graceful reboot command;
every other reboot_type value (not only HARD) issues the forced reset
command. -/
theorem reboot_cmd_soft_vs_reset :
    (∀ n : String, reboot_cmd ("SOFT") n = [("reboot"), n]) ∧
    ∀ t n : String, t ≠ ("SOFT") → reboot_cmd t n = [("reset"), n] := by
  constructor
  · intro n; rfl
  · intro t n ht
    simp [reboot_cmd, ht]

/-- Witness for C10: a non-SOFT reboot type (HARD) issues reset, and the
lowercase string soft also issues reset. -/
theorem reboot_cmd_soft_vs_reset_witness :
    reboot_cmd ("HARD") ("vm1") = [("reset"), ("vm1")] ∧
    reboot_cmd ("soft") ("vm1") = [("reset"), ("vm1")] :=
  ⟨reboot_cmd_soft_vs_reset.2 ("HARD") ("vm1") (by decide),
   reboot_cmd_soft_vs_reset.2 ("soft") ("vm1") (by decide)⟩

/-- Counterexample to C4 as stated: (i) two different non-zero exit codes
produce the same error, so the error raised to the caller does not carry
the exit code; (ii) when the process cannot be started at all, the raw
`OSError` escapes unwrapped instead of an `ExecutionError`. -/
theorem execute_xl_claim_false :
    execute_xl (.completed 1 ("") ("boom")) = .error (.novaException ("boom")) ∧
    execute_xl (.completed 2 ("") ("boom")) = .error (.novaException ("boom")) ∧
    execute_xl (.startFailure ("xl: No such file or directory")) =
      .error (.osError ("xl: No such file or directory")) := by
  refine ⟨rfl, rfl, rfl⟩

/-- C4 amended: a completed process with non-zero exit fails with the
execution error (`NovaException`) carrying the stderr text only; a zero
exit returns the completed process; a process that cannot be started
propagates the raw `OSError` unwrapped. -/
theorem execute_xl_classification :
    ∀ (c : Nat) (out err m : String),
      execute_xl (.completed 0 out err) = .ok ⟨0, out, err⟩ ∧
      execute_xl (.completed (c + 1) out err) = .error (.novaException err) ∧
      execute_xl (.startFailure m) = .error (.osError m) := by
  intro c out err m
  refine ⟨rfl, rfl, rfl⟩

/-- C3: destroy never raises when the destroy command fails — for every
outcome of the `xl destroy` command (non-zero exit with arbitrary stderr,
even a failure to start it) and every completed run of the directory
removal, destroy returns normally; when destroy_disks is true the
directory teardown is attempted even after a destroy-command failure, and
a non-zero exit of the removal is likewise non-fatal. -/
theorem destroy_best_effort :
    ∀ (dOut : RunOutcome) (rmCode : Nat) (rmOutStr rmErr : String) (dd : Bool),
      destroy dOut (.completed rmCode rmOutStr rmErr) dd =
        .ok ⟨true, dd⟩ := by
  intro dOut rmCode rmOutStr rmErr dd
  cases dd
  · rfl
  · match rmCode with
    | 0 => rfl
    | c + 1 => rfl

/-- Splitting a character list at every separator (characters satisfying
`p`), keeping empty fragments, dropping the separators — the semantics of
Python's `str.split(sep)` at the character level.  The result is always
non-empty. -/
def splitP (p : Char → Bool) : List Char → List (List Char)
  | [] => [[]]
  | x :: xs =>
    let r := splitP p xs
    if p x then [] :: r else (x :: r.headD []) :: r.tail

/-- Python `str.strip()`: remove leading and trailing whitespace. -/
def pyStrip (s : String) : String :=
  String.mk (((s.toList.dropWhile Char.isWhitespace).reverse.dropWhile
    Char.isWhitespace).reverse)

/-- Python `str.splitlines()`, with the newline character as the only line
boundary (no input modelled here contains the rarer boundary characters):
every newline terminates a line, and a final fragment after the last
newline is kept only when non-empty. -/
def pySplitlines (s : String) : List String :=
  let ps := (splitP (fun c => c == nlChar) s.toList).map (fun l => String.mk l)
  if ps.getLast? = some ("") then ps.dropLast else ps

/-- Python `line.split(':')`. -/
def pySplitColon (s : String) : List String :=
  (splitP (fun c => c == Char.ofNat 58) s.toList).map (fun l => String.mk l)

/-- Python `line.split()` with no argument: split on whitespace runs,
discarding empty fragments. -/
def pySplitWs (s : String) : List String :=
  ((splitP (fun c => c.isWhitespace) s.toList).filter
    (fun l => !l.isEmpty)).map (fun l => String.mk l)

/-- Predicate `startsWithL pat l` decides whether `pat` is an initial segment of
`l`. -/
def startsWithL : List Char → List Char → Bool
  | [], _ => true
  | _ :: _, [] => false
  | p :: ps, x :: xs => p == x && startsWithL ps xs

/-- Python's substring containment test `pat in line`, at the character
level. -/
def hasSubstr (pat : List Char) : List Char → Bool
  | [] => startsWithL pat []
  | x :: xs => startsWithL pat (x :: xs) || hasSubstr pat xs

/-- Decimal digit test (codepoints 48–57). -/
def isDigitChar (c : Char) : Bool := 48 ≤ c.toNat && c.toNat ≤ 57

/-- Numeric value of a decimal digit character. -/
def digitVal (c : Char) : Nat := c.toNat - 48

/-- The character of one decimal digit. -/
def digChar (d : Nat) : Char := Char.ofNat (48 + d)

/-- Accumulating decimal reader: consumes digits left to right, fails on
the first non-digit. -/
def readNatAux : List Char → Nat → Option Nat
  | [], acc => some acc
  | c :: cs, acc =>
    if isDigitChar c then readNatAux cs (acc * 10 + digitVal c) else none

/-- Reads a non-empty all-digit character list as a natural number. -/
def readNat : List Char → Option Nat
  | [] => none
  | c :: cs => readNatAux (c :: cs) 0

/-- Python `int(s)` restricted to the shapes the driver can meet: an
optional leading minus sign followed by decimal digits; anything else
raises `ValueError` (modelled as `none`). -/
def pyInt (s : String) : Option Int :=
  match s.toList with
  | [] => none
  | c :: cs =>
    if c == Char.ofNat 45 then (readNat cs).map (fun n => -(n : Int))
    else (readNat (c :: cs)).map (fun n => (n : Int))

/-- Fuel-indexed decimal rendering (structurally recursive so that the
kernel can evaluate it); any fuel above the argument is enough. -/
def toDecFuel : Nat → Nat → List Char
  | 0, _ => []
  | fuel + 1, n =>
    if n < 10 then [digChar n]
    else toDecFuel fuel (n / 10) ++ [digChar (n % 10)]

/-- Decimal rendering of a natural number, most significant digit first —
the digits Python's string interpolation of an `int` produces. -/
def toDec (n : Nat) : List Char := toDecFuel (n + 1) n

/-- The Python `for` loop that appends one transformed element per
iteration and propagates the first exception. -/
def mapExc (f : String → Except PyExc String) : List String → Except PyExc (List String)
  | [] => .ok []
  | a :: t =>
    match f a with
    | .error e => .error e
    | .ok x =>
      match mapExc f t with
      | .error e => .error e
      | .ok xs => .ok (x :: xs)

/-- The Python `for` loop that threads a state through the iterations and
propagates the first exception. -/
def foldExc {σ : Type} (f : σ → String → Except PyExc σ) : σ → List String → Except PyExc σ
  | acc, [] => .ok acc
  | acc, a :: t =>
    match f acc a with
    | .error e => .error e
    | .ok acc2 => foldExc f acc2 t

example : pySplitlines ("a\nb\n") = [("a"), ("b")] := by decide

example : pySplitlines ("") = [] := by decide

example : pySplitlines ("a\n\nb") = [("a"), (""), ("b")] := by decide

example : pySplitWs ("  vm1   running  512 2 ") = [("vm1"), ("running"), ("512"), ("2")] := by decide

example : pySplitColon ("total_memory  : 8192") = [("total_memory  "), (" 8192")] := by decide

example : hasSubstr (("total_memory").toList) (("xy total_memory : 3").toList) = true := by decide

example : toDec 8192 = ("8192").toList := by decide

example : pyInt (("8192")) = some 8192 := by decide

example : pyInt (("-42")) = some (-42) := by decide

example : pyInt (("4x2")) = none := by decide

/-- One element of the JSON array `xl list -l <name>` prints, restricted to
the four keys `get_info` reads.  A key the object lacks is `none` (reading
it raises `KeyError` in Python). -/
structure DomainJson where
  state : Option String
  maxmem : Option Int
  mem : Option Int
  vcpus : Option Int
deriving DecidableEq, Repr

/-- The outcome of the query part of `get_info`: the `_execute_xl` call
raised, or `json.loads` failed (malformed output, or a non-array result
whose indexing raises), or a JSON array was decoded. -/
inductive QueryOutcome where
  | execFail (e : PyExc)
  | parseFail
  | parsed (doms : List DomainJson)
deriving DecidableEq, Repr

/-- The dict `get_info` returns. -/
structure InstanceInfo where
  state : PowerState
  max_mem : Int
  mem : Int
  num_cpu : Int
  cpu_time : Int
deriving DecidableEq, Repr

/-- Constant `oslo_utils.units.Ki`. -/
def unitsKi : Int := 1024

/-- Embedding of `XLDirectDriver.get_info`: the whole body sits in `try ... except
Exception: raise exception.InstanceNotFound(instance_id=instance.uuid)`,
so an execution failure, a JSON decode failure, the explicit
`InstanceNotFound` raised on an empty array, and a `KeyError` on a missing
field all surface as `InstanceNotFound`. -/
def get_info (uuid : String) (q : QueryOutcome) : Except PyExc InstanceInfo :=
  match q with
  | .execFail _ => .error (.instanceNotFound uuid)
  | .parseFail => .error (.instanceNotFound uuid)
  | .parsed [] => .error (.instanceNotFound uuid)
  | .parsed (d :: _) =>
    match d.state, d.maxmem, d.mem, d.vcpus with
    | some st, some mm, some m, some v =>
      .ok ⟨POWER_STATE_MAP_get st, mm * unitsKi, m * unitsKi, v, 0⟩
    | _, _, _, _ => .error (.instanceNotFound uuid)

/-- Embedding of `XLDirectDriver.list_instances` applied to the stdout of `xl list`:
drop one header line, then `line.split()[0]` for each remaining line —
indexing raises `IndexError` when a line has no whitespace-delimited
token. -/
def list_instances (stdout : String) : Except PyExc (List String) :=
  mapExc
    (fun line =>
      match pySplitWs line with
      | [] => .error .indexError
      | t :: _ => .ok t)
    ((pySplitlines stdout).drop 1)

/-- The key substring `'total_memory'` scanned for in the memory-info
lines. -/
def TOTAL_MEMORY : List Char := ("total_memory").toList

/-- The key substring `'free_memory'` scanned for in the memory-info
lines. -/
def FREE_MEMORY : List Char := ("free_memory").toList

/-- One iteration of the memory-info loop in `get_available_resource`:
`if 'total_memory' in line: total_memory_kb = int(line.split(':')[1].strip())
elif 'free_memory' in line: free_memory_kb = ...`. -/
def parseMemLine (st : Int × Int) (line : String) : Except PyExc (Int × Int) :=
  if hasSubstr TOTAL_MEMORY line.toList then
    match (pySplitColon line)[1]? with
    | none => .error .indexError
    | some part =>
      match pyInt (pyStrip part) with
      | none => .error .valueError
      | some v => .ok (v, st.2)
  else if hasSubstr FREE_MEMORY line.toList then
    match (pySplitColon line)[1]? with
    | none => .error .indexError
    | some part =>
      match pyInt (pyStrip part) with
      | none => .error .valueError
      | some v => .ok (st.1, v)
  else
    .ok st

/-- The dict `get_available_resource` returns. -/
structure HostResources where
  vcpus : Nat
  vcpus_used : Nat
  memory_mb : Int
  memory_mb_used : Int
  local_gb : Nat
  local_gb_used : Nat
  disk_available_least : Nat
  hypervisor_type : String
  hypervisor_version : Nat
  hypervisor_hostname : String
  cpu_info : String
  supported_instances : List String
deriving DecidableEq, Repr

/-- Embedding of `XLDirectDriver.get_available_resource` applied to the stdout of its
two queries (`xl info -n` and `xl info -n cpu`): both counters start at 0,
the memory-info lines are scanned for the two key substrings, and Python's
floor division `//` is `Int.fdiv`. -/
def get_available_resource (memOut cpuOut nodename : String) :
    Except PyExc HostResources :=
  match foldExc parseMemLine (0, 0) (pySplitlines memOut) with
  | .error e => .error e
  | .ok (total_memory_kb, free_memory_kb) =>
    .ok
      { vcpus := (pySplitlines cpuOut).length
        vcpus_used := 0
        memory_mb := total_memory_kb.fdiv 1024
        memory_mb_used := (total_memory_kb - free_memory_kb).fdiv 1024
        local_gb := 0
        local_gb_used := 0
        disk_available_least := 0
        hypervisor_type := ("xen")
        hypervisor_version := 4181
        hypervisor_hostname := nodename
        cpu_info := ("\x7b\x7d")
        supported_instances := [] }

/-- The caller-supplied fields of the instance object `_get_xl_config`
reads (`instance.name`, `instance.uuid`, `instance.flavor.memory_mb`,
`instance.flavor.vcpus`). -/
structure InstanceSpec where
  name : String
  uuid : String
  memory_mb : Nat
  vcpus : Nat
deriving DecidableEq, Repr

/-- Decimal rendering as a string. -/
def natStr (n : Nat) : String := String.mk (toDec n)

/-- The `cfg` list built inside `XLDirectDriver._get_xl_config`, one
f-string per entry. -/
def xl_config_lines (i : InstanceSpec) : List String :=
  [ ("name = ") ++ sqStr ++ i.name ++ sqStr,
    ("memory = ") ++ natStr i.memory_mb,
    ("vcpus = ") ++ natStr i.vcpus,
    ("uuid = ") ++ sqStr ++ i.uuid ++ sqStr,
    ("builder = ") ++ sqStr ++ ("hvm") ++ sqStr,
    ("boot = ") ++ sqStr ++ ("c") ++ sqStr,
    ("acpi = 1"),
    ("apic = 1"),
    ("disk = [") ++ sqStr ++ ("phy:/dev/vg0/") ++ i.name ++ (",hda,w") ++ sqStr ++ ("]"),
    ("vnc = 1"),
    ("vnclisten = ") ++ sqStr ++ ("0.0.0.0") ++ sqStr ]

/-- Python `'\n'.join(...)`. -/
def pyJoinNl : List String → String
  | [] => ("")
  | [a] => a
  | a :: b :: t => a ++ String.singleton nlChar ++ pyJoinNl (b :: t)

/-- Embedding of `XLDirectDriver._get_xl_config`: `'\n'.join(cfg)`. -/
def get_xl_config (i : InstanceSpec) : String := pyJoinNl (xl_config_lines i)

/-- Modelled from the spec: the repository contains no code that reads a
config artifact back, so the parse-back direction of the round-trip
("parsing the artifact's name/memory/vcpus fields back out") follows the
artifact file format the spec describes — a line `key = value` per field.
`fieldValue` matches one line against one key. -/
def fieldValue (key : String) (line : List Char) : Option (List Char) :=
  if startsWithL (key.toList ++ (" = ").toList) line then
    some (line.drop (key.toList ++ (" = ").toList).length)
  else none

/-- Modelled from the spec: the value of the first line of the artifact
carrying the given key. -/
def fieldRaw (artifact : String) (key : String) : Option (List Char) :=
  (splitP (fun c => c == nlChar) artifact.toList).findSome? (fieldValue key)

/-- Modelled from the spec: a value wrapped in single quotes on both ends
denotes the string between them; anything else denotes itself. -/
def stripQuotesL (v : List Char) : List Char :=
  if 2 ≤ v.length ∧ v.head? = some sqChar ∧ v.getLast? = some sqChar then
    (v.drop 1).dropLast
  else v

/-- Modelled from the spec: read a string-valued field (such as `name`)
back out of the artifact. -/
def parseStrField (artifact key : String) : Option String :=
  (fieldRaw artifact key).map (fun v => String.mk (stripQuotesL v))

/-- Modelled from the spec: read a numeric field (`memory`, `vcpus`) back
out of the artifact. -/
def parseNatField (artifact key : String) : Option Nat :=
  (fieldRaw artifact key).bind readNat

example :
    parseStrField (get_xl_config ⟨("vm1"), ("u-1"), 512, 2⟩) ("name") = some ("vm1") := by
  decide

example :
    parseNatField (get_xl_config ⟨("vm1"), ("u-1"), 512, 2⟩) ("memory") = some 512 := by
  decide

example :
    parseNatField (get_xl_config ⟨("vm1"), ("u-1"), 512, 2⟩) ("vcpus") = some 2 := by
  decide

example :
    list_instances ("NAME STATE MEM VCPUS\nvm1 running 512 2\nvm2 paused 256 1") =
      .ok [("vm1"), ("vm2")] := by
  decide

example :
    get_available_resource ("total_memory : 8192\nfree_memory : 2048")
        ("cpu0\ncpu1\ncpu2\ncpu3") ("node1") =
      .ok ⟨4, 0, 8, 6, 0, 0, 0, ("xen"), 4181, ("node1"), ("\x7b\x7d"), []⟩ := by
  decide

theorem splitP_nil (p : Char → Bool) : splitP p [] = [[]] := rfl

theorem splitP_cons (p : Char → Bool) (x : Char) (xs : List Char) :
    splitP p (x :: xs) =
      if p x then [] :: splitP p xs
      else (x :: (splitP p xs).headD []) :: (splitP p xs).tail := rfl

theorem splitP_ne_nil (p : Char → Bool) : ∀ l : List Char, splitP p l ≠ []
  | [] => by simp [splitP]
  | x :: xs => by
    rw [splitP_cons]
    split <;> simp

theorem splitP_no_sep (p : Char → Bool) :
    ∀ l : List Char, (∀ c ∈ l, p c = false) → splitP p l = [l] := by
  intro l
  induction l with
  | nil => intro _; rfl
  | cons x xs ih =>
    intro h
    rw [splitP_cons, if_neg, ih (fun c hc => h c (List.mem_cons_of_mem x hc))]
    · rfl
    · simp [h x (List.mem_cons_self x xs)]

theorem splitP_append_sep (p : Char → Bool) (s : Char) (b : List Char)
    (hs : p s = true) :
    ∀ a : List Char, (∀ c ∈ a, p c = false) →
      splitP p (a ++ s :: b) = a :: splitP p b := by
  intro a
  induction a with
  | nil => intro _; simp [splitP_cons, hs]
  | cons x a' ih =>
    intro h
    have hx : p x = false := h x (List.mem_cons_self x a')
    have ha' := ih (fun c hc => h c (List.mem_cons_of_mem x hc))
    rw [List.cons_append, splitP_cons, if_neg (by simp [hx]), ha']
    rfl

theorem startsWithL_append_self :
    ∀ pat rest : List Char, startsWithL pat (pat ++ rest) = true := by
  intro pat
  induction pat with
  | nil => intro rest; rfl
  | cons p ps ih => intro rest; simp [startsWithL, ih rest]

theorem startsWithL_cons_false (p x : Char) (ps xs : List Char) (h : p ≠ x) :
    startsWithL (p :: ps) (x :: xs) = false := by
  simp [startsWithL, h]

theorem startsWithL_mem :
    ∀ pat l : List Char, startsWithL pat l = true → ∀ c ∈ pat, c ∈ l := by
  intro pat
  induction pat with
  | nil => intro l _ c hc; simp at hc
  | cons p ps ih =>
    intro l h c hc
    match l with
    | [] => simp [startsWithL] at h
    | x :: xs =>
      simp only [startsWithL, Bool.and_eq_true, beq_iff_eq] at h
      rcases List.mem_cons.mp hc with hc | hc
      · exact hc ▸ h.1 ▸ List.mem_cons_self x xs
      · exact List.mem_cons_of_mem x (ih xs h.2 c hc)

theorem hasSubstr_mem :
    ∀ l pat : List Char, hasSubstr pat l = true → ∀ c ∈ pat, c ∈ l := by
  intro l
  induction l with
  | nil => intro pat h c hc; exact startsWithL_mem pat [] h c hc
  | cons x xs ih =>
    intro pat h c hc
    simp only [hasSubstr, Bool.or_eq_true] at h
    rcases h with h | h
    · exact startsWithL_mem pat (x :: xs) h c hc
    · exact List.mem_cons_of_mem x (ih pat h c hc)

theorem hasSubstr_of_startsWithL (pat l : List Char) (h : startsWithL pat l = true) :
    hasSubstr pat l = true := by
  match l with
  | [] => exact h
  | x :: xs => simp [hasSubstr, h]

theorem hasSubstr_append_self (pat rest : List Char) :
    hasSubstr pat (pat ++ rest) = true :=
  hasSubstr_of_startsWithL pat (pat ++ rest) (startsWithL_append_self pat rest)

theorem isDigitChar_digChar (d : Nat) (h : d < 10) : isDigitChar (digChar d) = true := by
  interval_cases d <;> decide

theorem digitVal_digChar (d : Nat) (h : d < 10) : digitVal (digChar d) = d := by
  interval_cases d <;> decide

theorem toDecFuel_digits :
    ∀ fuel n : Nat, n < fuel → ∀ c ∈ toDecFuel fuel n, isDigitChar c = true := by
  intro fuel
  induction fuel with
  | zero => intro n hn; omega
  | succ f ih =>
    intro n hn c hc
    by_cases h10 : n < 10
    · simp only [toDecFuel, if_pos h10, List.mem_singleton] at hc
      exact hc ▸ isDigitChar_digChar n h10
    · simp only [toDecFuel, if_neg h10, List.mem_append, List.mem_singleton] at hc
      rcases hc with hc | hc
      · have hlt : n / 10 < f := by
          have := Nat.div_lt_self (by omega : 0 < n) (by omega : 1 < 10)
          omega
        exact ih (n / 10) hlt c hc
      · exact hc ▸ isDigitChar_digChar (n % 10) (Nat.mod_lt n (by omega))

theorem toDec_digits (n : Nat) : ∀ c ∈ toDec n, isDigitChar c = true :=
  toDecFuel_digits (n + 1) n (Nat.lt_succ_self n)

theorem toDecFuel_ne_nil :
    ∀ fuel n : Nat, n < fuel → toDecFuel fuel n ≠ [] := by
  intro fuel n hn
  match fuel with
  | f + 1 =>
    by_cases h10 : n < 10
    · simp [toDecFuel, if_pos h10]
    · simp only [toDecFuel, if_neg h10]
      intro h
      exact absurd (List.append_eq_nil.mp h).2 (by simp)

theorem toDec_ne_nil (n : Nat) : toDec n ≠ [] :=
  toDecFuel_ne_nil (n + 1) n (Nat.lt_succ_self n)

theorem readNatAux_toDecFuel :
    ∀ fuel n acc : Nat, ∀ rest : List Char, n < fuel →
      readNatAux (toDecFuel fuel n ++ rest) acc =
        readNatAux rest (acc * 10 ^ (toDecFuel fuel n).length + n) := by
  intro fuel
  induction fuel with
  | zero => intro n acc rest hn; omega
  | succ f ih =>
    intro n acc rest hn
    by_cases h10 : n < 10
    · simp only [toDecFuel, if_pos h10, List.singleton_append, List.length_singleton,
        readNatAux, isDigitChar_digChar n h10, if_pos, digitVal_digChar n h10, pow_one]
    · have hlt : n / 10 < f := by
        have := Nat.div_lt_self (by omega : 0 < n) (by omega : 1 < 10)
        omega
      have hmod : n % 10 < 10 := Nat.mod_lt n (by omega)
      simp only [toDecFuel, if_neg h10, List.append_assoc, List.singleton_append]
      rw [ih (n / 10) acc (digChar (n % 10) :: rest) hlt]
      simp only [readNatAux, isDigitChar_digChar (n % 10) hmod, if_pos,
        digitVal_digChar (n % 10) hmod, List.length_append, List.length_singleton]
      congr 1
      have hdm : n / 10 * 10 + n % 10 = n := Nat.div_add_mod' n 10
      calc (acc * 10 ^ (toDecFuel f (n / 10)).length + n / 10) * 10 + n % 10
          = acc * (10 ^ (toDecFuel f (n / 10)).length * 10) + (n / 10 * 10 + n % 10) := by
            ring
        _ = acc * 10 ^ ((toDecFuel f (n / 10)).length + 1) + n := by
            rw [hdm, pow_succ]

theorem readNat_toDec (n : Nat) : readNat (toDec n) = some n := by
  obtain ⟨c, cs, hcons⟩ := List.exists_cons_of_ne_nil (toDec_ne_nil n)
  have h := readNatAux_toDecFuel (n + 1) n 0 [] (Nat.lt_succ_self n)
  rw [List.append_nil] at h
  show readNat (toDec n) = some n
  rw [hcons]
  show readNatAux (c :: cs) 0 = some n
  rw [← hcons]
  show readNatAux (toDec n) 0 = some n
  rw [show toDec n = toDecFuel (n + 1) n from rfl, h]
  simp [readNatAux]

theorem toList_mk (l : List Char) : (String.mk l).toList = l := rfl

theorem mk_toList (s : String) : String.mk s.toList = s := by
  cases s; rfl

theorem toList_append (a b : String) : (a ++ b).toList = a.toList ++ b.toList := by
  cases a; cases b; rfl

theorem toList_singleton (c : Char) : (String.singleton c).toList = [c] := rfl

theorem digit_ne_char (c : Char) (h : isDigitChar c = true) (d : Char)
    (hd : isDigitChar d = false) : c ≠ d := by
  intro he
  rw [he, hd] at h
  exact Bool.false_ne_true h

theorem not_isWhitespace_of_digit (c : Char) (h : isDigitChar c = true) :
    c.isWhitespace = false := by
  by_contra hw
  have hw' : c.isWhitespace = true := by revert hw; cases c.isWhitespace <;> simp
  simp only [Char.isWhitespace, Bool.or_eq_true, decide_eq_true_eq] at hw'
  rcases hw' with ((h1 | h1) | h1) | h1 <;>
    · rw [h1] at h
      exact absurd h (by decide)

theorem dropWhile_eq_self_of_all_false {p : Char → Bool} :
    ∀ l : List Char, (∀ c ∈ l, p c = false) → l.dropWhile p = l := by
  intro l h
  cases l with
  | nil => rfl
  | cons x xs =>
    rw [List.dropWhile_cons, if_neg]
    simp [h x (List.mem_cons_self x xs)]

theorem pyStrip_space_digits (n : Nat) :
    pyStrip (String.mk (Char.ofNat 32 :: toDec n)) = String.mk (toDec n) := by
  have hdigits : ∀ c ∈ toDec n, c.isWhitespace = false := fun c hc =>
    not_isWhitespace_of_digit c (toDec_digits n c hc)
  have h1 : (Char.ofNat 32 :: toDec n).dropWhile Char.isWhitespace = toDec n := by
    rw [List.dropWhile_cons, if_pos (by decide)]
    exact dropWhile_eq_self_of_all_false (toDec n) hdigits
  have h2 : (toDec n).reverse.dropWhile Char.isWhitespace = (toDec n).reverse :=
    dropWhile_eq_self_of_all_false (toDec n).reverse
      (fun c hc => hdigits c (List.mem_reverse.mp hc))
  simp [pyStrip, toList_mk, h1, h2]

theorem pyInt_mk_toDec (n : Nat) : pyInt (String.mk (toDec n)) = some (n : Int) := by
  obtain ⟨c, cs, hcons⟩ := List.exists_cons_of_ne_nil (toDec_ne_nil n)
  have hdig : isDigitChar c = true :=
    toDec_digits n c (by rw [hcons]; exact List.mem_cons_self c cs)
  have hne : (c == Char.ofNat 45) = false := by
    simp only [beq_eq_false_iff_ne, ne_eq]
    exact digit_ne_char c hdig (Char.ofNat 45) (by decide)
  show pyInt (String.mk (toDec n)) = some (n : Int)
  rw [pyInt, toList_mk, hcons]
  simp only [hne, Bool.false_eq_true, if_false, ← hcons, readNat_toDec]
  rfl

/-- C2: get_info fails with InstanceNotFound on an empty JSON array, on an
execution failure, on a JSON decode failure, and on a missing field; more
generally every error it can return is InstanceNotFound for the queried
instance — never a raw execution or parse error. -/
theorem get_info_always_not_found :
    ∀ uuid : String,
      get_info uuid (.parsed []) = .error (.instanceNotFound uuid) ∧
      (∀ e : PyExc, get_info uuid (.execFail e) = .error (.instanceNotFound uuid)) ∧
      get_info uuid .parseFail = .error (.instanceNotFound uuid) ∧
      ∀ (q : QueryOutcome) (e : PyExc),
        get_info uuid q = .error e → e = .instanceNotFound uuid := by
  intro uuid
  refine ⟨rfl, fun _ => rfl, rfl, ?_⟩
  intro q e h
  match q with
  | .execFail e' => simpa [get_info] using h.symm
  | .parseFail => simpa [get_info] using h.symm
  | .parsed [] => simpa [get_info] using h.symm
  | .parsed (d :: t) =>
    obtain ⟨st, mm, m, v⟩ := d
    cases st <;> cases mm <;> cases m <;> cases v <;>
      simp [get_info] at h <;> simp [h.symm]

/-- Witness for C2: a concrete execution failure is reported as
InstanceNotFound. -/
theorem get_info_always_not_found_witness :
    get_info ("uuid-1") (.execFail (.novaException ("boom"))) =
      .error (.instanceNotFound ("uuid-1")) ∧
    PyExc.instanceNotFound ("uuid-1") = .instanceNotFound ("uuid-1") :=
  ⟨rfl, (get_info_always_not_found ("uuid-1")).2.2.2
    (.execFail (.novaException ("boom"))) (.instanceNotFound ("uuid-1")) rfl⟩

/-- C8: whenever get_available_resource returns a snapshot, the fields
vcpus_used, local_gb, local_gb_used and disk_available_least are the
constant 0, independent of the nodename and of both hypervisor outputs. -/
theorem get_available_resource_constant_fields :
    ∀ (memOut cpuOut node : String) (r : HostResources),
      get_available_resource memOut cpuOut node = .ok r →
      r.vcpus_used = 0 ∧ r.local_gb = 0 ∧ r.local_gb_used = 0 ∧
        r.disk_available_least = 0 := by
  intro memOut cpuOut node r h
  rw [get_available_resource] at h
  cases hf : foldExc parseMemLine (0, 0) (pySplitlines memOut) with
  | error e =>
    rw [hf] at h
    exact absurd h (by simp)
  | ok tf =>
    obtain ⟨t, f⟩ := tf
    rw [hf] at h
    simp only [Except.ok.injEq] at h
    rw [← h]
    exact ⟨rfl, rfl, rfl, rfl⟩

/-- Witness for C8: the constant fields at a concrete query. -/
theorem get_available_resource_constant_fields_witness :
    get_available_resource ("total_memory : 8192\nfree_memory : 2048")
        ("cpu0\ncpu1\ncpu2\ncpu3") ("node1") =
      .ok ⟨4, 0, 8, 6, 0, 0, 0, ("xen"), 4181, ("node1"), ("\x7b\x7d"), []⟩ ∧
    ((⟨4, 0, 8, 6, 0, 0, 0, ("xen"), 4181, ("node1"), ("\x7b\x7d"), []⟩ :
        HostResources).vcpus_used = 0 ∧
      (⟨4, 0, 8, 6, 0, 0, 0, ("xen"), 4181, ("node1"), ("\x7b\x7d"), []⟩ :
        HostResources).local_gb = 0 ∧
      (⟨4, 0, 8, 6, 0, 0, 0, ("xen"), 4181, ("node1"), ("\x7b\x7d"), []⟩ :
        HostResources).local_gb_used = 0 ∧
      (⟨4, 0, 8, 6, 0, 0, 0, ("xen"), 4181, ("node1"), ("\x7b\x7d"), []⟩ :
        HostResources).disk_available_least = 0) :=
  ⟨by decide,
   get_available_resource_constant_fields ("total_memory : 8192\nfree_memory : 2048")
     ("cpu0\ncpu1\ncpu2\ncpu3") ("node1") _ (by decide)⟩

theorem foldExc_of_fixed {σ : Type} (f : σ → String → Except PyExc σ) :
    ∀ (l : List String) (a : σ), (∀ x ∈ l, ∀ s, f s x = .ok s) →
      foldExc f a l = .ok a := by
  intro l
  induction l with
  | nil => intro a _; rfl
  | cons x t ih =>
    intro a h
    show foldExc f a (x :: t) = .ok a
    rw [foldExc, h x (List.mem_cons_self x t) a]
    exact ih a (fun y hy s => h y (List.mem_cons_of_mem x hy) s)

theorem parseMemLine_skip (line : String)
    (h1 : hasSubstr TOTAL_MEMORY line.toList = false)
    (h2 : hasSubstr FREE_MEMORY line.toList = false) :
    ∀ s : Int × Int, parseMemLine s line = .ok s := by
  intro s
  rw [parseMemLine, if_neg (by simp only [Bool.not_eq_true]; exact h1),
    if_neg (by simp only [Bool.not_eq_true]; exact h2)]

/-- C9: when no memory-info line mentions total_memory or free_memory,
get_available_resource does not fail: both counters keep their zero
initial value and the snapshot reports memory_mb = 0 and
memory_mb_used = 0. -/
theorem get_available_resource_ok_of_fold (memOut cpuOut node : String) (t f : Int)
    (hf : foldExc parseMemLine (0, 0) (pySplitlines memOut) = .ok (t, f)) :
    get_available_resource memOut cpuOut node =
      .ok ⟨(pySplitlines cpuOut).length, 0, t.fdiv 1024, (t - f).fdiv 1024, 0, 0, 0,
           ("xen"), 4181, node, ("\x7b\x7d"), []⟩ := by
  rw [get_available_resource, hf]

/-- C9: when no memory-info line mentions total_memory or free_memory,
get_available_resource does not fail: both counters keep their zero
initial value and the snapshot reports memory_mb = 0 and
memory_mb_used = 0. -/
theorem get_available_resource_defaults_zero :
    ∀ memOut cpuOut node : String,
      (∀ line ∈ pySplitlines memOut,
        hasSubstr TOTAL_MEMORY line.toList = false ∧
        hasSubstr FREE_MEMORY line.toList = false) →
      get_available_resource memOut cpuOut node =
        .ok ⟨(pySplitlines cpuOut).length, 0, 0, 0, 0, 0, 0, ("xen"), 4181, node,
             ("\x7b\x7d"), []⟩ := by
  intro memOut cpuOut node h
  have hfold : foldExc parseMemLine ((0 : Int), (0 : Int)) (pySplitlines memOut) =
      .ok (0, 0) :=
    foldExc_of_fixed parseMemLine (pySplitlines memOut) (0, 0)
      (fun line hl s => parseMemLine_skip line (h line hl).1 (h line hl).2 s)
  have := get_available_resource_ok_of_fold memOut cpuOut node 0 0 hfold
  rw [this]
  rfl

/-- Witness for C9: a memory-info output with no recognized key. -/
theorem get_available_resource_defaults_zero_witness :
    (∀ line ∈ pySplitlines ("hello\nworld"),
      hasSubstr TOTAL_MEMORY line.toList = false ∧
      hasSubstr FREE_MEMORY line.toList = false) ∧
    get_available_resource ("hello\nworld") ("cpu0\ncpu1") ("n1") =
      .ok ⟨2, 0, 0, 0, 0, 0, 0, ("xen"), 4181, ("n1"), ("\x7b\x7d"), []⟩ :=
  ⟨by decide,
   by
    have := get_available_resource_defaults_zero ("hello\nworld") ("cpu0\ncpu1") ("n1")
      (by decide)
    simpa using this⟩

/-- The first whitespace-delimited token of a line (empty default). -/
def firstTokenD (line : String) : String := (pySplitWs line).headD ("")

/-- Counterexample to C7 as stated: (i) a whitespace-only data line is not
skipped — `line.split()[0]` raises IndexError and the whole parse aborts;
(ii) a listing whose header is entirely missing does not fail with a
ParseError — the first data line is silently consumed as the header and
only the remaining names are returned. -/
theorem list_instances_claim_false :
    list_instances ("NAME STATE MEM VCPUS\nvm1 running 512 2\n  \nvm2 paused 256 1") =
      .error .indexError ∧
    list_instances ("vm1 running 512 2\nvm2 paused 256 1") = .ok [("vm2")] := by
  refine ⟨by decide, by decide⟩

theorem mapExc_firstToken_ok :
    ∀ l : List String, (∀ line ∈ l, pySplitWs line ≠ []) →
      mapExc
        (fun line =>
          match pySplitWs line with
          | [] => .error .indexError
          | t :: _ => .ok t)
        l = .ok (l.map firstTokenD) := by
  intro l
  induction l with
  | nil => intro _; rfl
  | cons x t ih =>
    intro h
    obtain ⟨y, ys, hcons⟩ :=
      List.exists_cons_of_ne_nil (h x (List.mem_cons_self x t))
    have hx : firstTokenD x = y := by rw [firstTokenD, hcons]; rfl
    rw [mapExc]
    simp only [hcons]
    rw [ih (fun z hz => h z (List.mem_cons_of_mem x hz))]
    simp [hx]

/-- C7 amended: list_instances skips exactly one line — whatever it is,
with no header validation (a missing header is not detected; the first
line is always consumed) — and returns the first whitespace-delimited
token of each remaining line, provided every remaining line has at least
one token; a token-less (empty or whitespace-only) remaining line makes
the whole call fail with IndexError instead of being skipped. -/
theorem list_instances_amended :
    (∀ stdout : String,
      (∀ line ∈ (pySplitlines stdout).drop 1, pySplitWs line ≠ []) →
      list_instances stdout = .ok (((pySplitlines stdout).drop 1).map firstTokenD)) ∧
    list_instances ("NAME STATE MEM VCPUS\nvm1 running 512 2\nvm2 paused 256 1") =
      .ok [("vm1"), ("vm2")] := by
  constructor
  · intro stdout h
    rw [list_instances]
    exact mapExc_firstToken_ok ((pySplitlines stdout).drop 1) h
  · decide

/-- Witness for C7 amended: the general part applied to a concrete
listing. -/
theorem list_instances_amended_witness :
    (∀ line ∈ (pySplitlines ("HEADER\nvm1 a\nvm2 b")).drop 1, pySplitWs line ≠ []) ∧
    list_instances ("HEADER\nvm1 a\nvm2 b") =
      .ok (((pySplitlines ("HEADER\nvm1 a\nvm2 b")).drop 1).map firstTokenD) :=
  ⟨by decide, list_instances_amended.1 ("HEADER\nvm1 a\nvm2 b") (by decide)⟩

theorem toList_natStr (n : Nat) : (natStr n).toList = toDec n := rfl

theorem mk_append (a b : String) : String.mk (a.toList ++ b.toList) = a ++ b := by
  cases a; cases b; rfl

theorem beq_eq_false_of_digit (c : Char) (h : isDigitChar c = true) (d : Char)
    (hd : isDigitChar d = false) : (c == d) = false := by
  simp only [beq_eq_false_iff_ne, ne_eq]
  exact digit_ne_char c h d hd

theorem hasSubstr_eq_false_of_not_mem (pat l : List Char) (c : Char)
    (hc : c ∈ pat) (hnl : c ∉ l) : hasSubstr pat l = false := by
  cases heq : hasSubstr pat l
  · rfl
  · exact absurd (hasSubstr_mem l pat heq c hc) hnl

/-- A well-formed memory-info output for `xl info -n`: one total_memory
line and one free_memory line, with arbitrary numeric values. -/
def memInfoOut (t f : Nat) : String :=
  ("total_memory : ") ++ natStr t ++ String.singleton nlChar ++
    ("free_memory : ") ++ natStr f

theorem toList_memInfoOut (t f : Nat) :
    (memInfoOut t f).toList =
      (("total_memory : ").toList ++ toDec t) ++
        nlChar :: (("free_memory : ").toList ++ toDec f) := by
  simp [memInfoOut, natStr, toList_append, toList_mk, toList_singleton,
    List.append_assoc]

theorem no_nl_total_line (t : Nat) :
    ∀ c ∈ ("total_memory : ").toList ++ toDec t, (c == nlChar) = false := by
  have hlit : ∀ c ∈ ("total_memory : ").toList, (c == nlChar) = false := by decide
  intro c hc
  rcases List.mem_append.mp hc with hc | hc
  · exact hlit c hc
  · exact beq_eq_false_of_digit c (toDec_digits t c hc) nlChar (by decide)

theorem no_nl_free_line (f : Nat) :
    ∀ c ∈ ("free_memory : ").toList ++ toDec f, (c == nlChar) = false := by
  have hlit : ∀ c ∈ ("free_memory : ").toList, (c == nlChar) = false := by decide
  intro c hc
  rcases List.mem_append.mp hc with hc | hc
  · exact hlit c hc
  · exact beq_eq_false_of_digit c (toDec_digits f c hc) nlChar (by decide)

theorem pySplitlines_memInfoOut (t f : Nat) :
    pySplitlines (memInfoOut t f) =
      [("total_memory : ") ++ natStr t, ("free_memory : ") ++ natStr f] := by
  have hsplit : splitP (fun c => c == nlChar) (memInfoOut t f).toList =
      [("total_memory : ").toList ++ toDec t,
       ("free_memory : ").toList ++ toDec f] := by
    rw [toList_memInfoOut,
      splitP_append_sep (fun c => c == nlChar) nlChar _ (by simp) _ (no_nl_total_line t),
      splitP_no_sep (fun c => c == nlChar) _ (no_nl_free_line f)]
  have hB : (("free_memory : ") ++ natStr f) ≠ ("") := by
    intro h
    have h2 := congrArg String.toList h
    rw [toList_append, toList_natStr] at h2
    rcases List.append_eq_nil.mp h2 with ⟨h3, -⟩
    exact absurd h3 (by decide)
  rw [pySplitlines]
  simp only [hsplit, List.map_cons, List.map_nil]
  rw [show String.mk (("total_memory : ").toList ++ toDec t) =
        ("total_memory : ") ++ natStr t from mk_append _ _,
      show String.mk (("free_memory : ").toList ++ toDec f) =
        ("free_memory : ") ++ natStr f from mk_append _ _]
  rw [if_neg]
  simp only [List.getLast?_cons_cons, List.getLast?_singleton, Option.some.injEq]
  exact hB

theorem toList_total_line (t : Nat) :
    (("total_memory : ") ++ natStr t).toList =
      ("total_memory ").toList ++ Char.ofNat 58 :: (Char.ofNat 32 :: toDec t) := by
  rw [toList_append, toList_natStr,
    show ("total_memory : ").toList =
      ("total_memory ").toList ++ Char.ofNat 58 :: [Char.ofNat 32] from by decide]
  simp [List.append_assoc]

theorem toList_free_line (f : Nat) :
    (("free_memory : ") ++ natStr f).toList =
      ("free_memory ").toList ++ Char.ofNat 58 :: (Char.ofNat 32 :: toDec f) := by
  rw [toList_append, toList_natStr,
    show ("free_memory : ").toList =
      ("free_memory ").toList ++ Char.ofNat 58 :: [Char.ofNat 32] from by decide]
  simp [List.append_assoc]

theorem no_colon_space_digits (n : Nat) :
    ∀ c ∈ Char.ofNat 32 :: toDec n, (c == Char.ofNat 58) = false := by
  intro c hc
  rcases List.mem_cons.mp hc with hc | hc
  · rw [hc]; decide
  · exact beq_eq_false_of_digit c (toDec_digits n c hc) (Char.ofNat 58) (by decide)

theorem pySplitColon_total_line (t : Nat) :
    pySplitColon (("total_memory : ") ++ natStr t) =
      [String.mk (("total_memory ").toList), String.mk (Char.ofNat 32 :: toDec t)] := by
  have hlit : ∀ c ∈ ("total_memory ").toList, (c == Char.ofNat 58) = false := by decide
  rw [pySplitColon, toList_total_line,
    splitP_append_sep (fun c => c == Char.ofNat 58) (Char.ofNat 58) _ (by simp) _ hlit,
    splitP_no_sep (fun c => c == Char.ofNat 58) _ (no_colon_space_digits t)]
  rfl

theorem pySplitColon_free_line (f : Nat) :
    pySplitColon (("free_memory : ") ++ natStr f) =
      [String.mk (("free_memory ").toList), String.mk (Char.ofNat 32 :: toDec f)] := by
  have hlit : ∀ c ∈ ("free_memory ").toList, (c == Char.ofNat 58) = false := by decide
  rw [pySplitColon, toList_free_line,
    splitP_append_sep (fun c => c == Char.ofNat 58) (Char.ofNat 58) _ (by simp) _ hlit,
    splitP_no_sep (fun c => c == Char.ofNat 58) _ (no_colon_space_digits f)]
  rfl

theorem hasSubstr_total_total (t : Nat) :
    hasSubstr TOTAL_MEMORY (("total_memory : ") ++ natStr t).toList = true := by
  rw [toList_append, toList_natStr,
    show ("total_memory : ").toList = TOTAL_MEMORY ++ (" : ").toList from by decide,
    List.append_assoc]
  exact hasSubstr_append_self _ _

theorem hasSubstr_total_free (f : Nat) :
    hasSubstr TOTAL_MEMORY (("free_memory : ") ++ natStr f).toList = false := by
  have hlit : Char.ofNat 116 ∉ ("free_memory : ").toList := by decide
  refine hasSubstr_eq_false_of_not_mem _ _ (Char.ofNat 116) (by decide) ?_
  rw [toList_append, toList_natStr]
  intro hmem
  rcases List.mem_append.mp hmem with hmem | hmem
  · exact hlit hmem
  · exact absurd (toDec_digits f _ hmem) (by decide)

theorem hasSubstr_free_free (f : Nat) :
    hasSubstr FREE_MEMORY (("free_memory : ") ++ natStr f).toList = true := by
  rw [toList_append, toList_natStr,
    show ("free_memory : ").toList = FREE_MEMORY ++ (" : ").toList from by decide,
    List.append_assoc]
  exact hasSubstr_append_self _ _

theorem parseMemLine_total_line (t : Nat) (s : Int × Int) :
    parseMemLine s (("total_memory : ") ++ natStr t) = .ok ((t : Int), s.2) := by
  rw [parseMemLine, if_pos (hasSubstr_total_total t), pySplitColon_total_line]
  simp only [List.getElem?_cons_succ, List.getElem?_cons_zero]
  rw [pyStrip_space_digits t, pyInt_mk_toDec t]

theorem parseMemLine_free_line (f : Nat) (s : Int × Int) :
    parseMemLine s (("free_memory : ") ++ natStr f) = .ok (s.1, (f : Int)) := by
  rw [parseMemLine, if_neg (by simp only [Bool.not_eq_true]; exact hasSubstr_total_free f),
    if_pos (hasSubstr_free_free f), pySplitColon_free_line]
  simp only [List.getElem?_cons_succ, List.getElem?_cons_zero]
  rw [pyStrip_space_digits f, pyInt_mk_toDec f]

theorem foldExc_cons_ok {σ : Type} (f : σ → String → Except PyExc σ) (a : σ)
    (x : String) (l : List String) (b : σ) (h : f a x = .ok b) :
    foldExc f a (x :: l) = foldExc f b l := by
  rw [foldExc, h]

/-- C6: for a memory-info output with lines total_memory : t and
free_memory : f, the snapshot has memory_mb = t / 1024 (floor),
memory_mb_used = (t - f) / 1024 (floor) and vcpus = the number of cpu-info
lines; in particular the values 8192/2048 with 4 cpu-info lines give
memory_mb = 8, memory_mb_used = 6, vcpus = 4. -/
theorem get_available_resource_formulas :
    (∀ (t f : Nat) (cpuOut node : String),
      get_available_resource (memInfoOut t f) cpuOut node =
        .ok ⟨(pySplitlines cpuOut).length, 0, ((t : Int)).fdiv 1024,
             ((t : Int) - (f : Int)).fdiv 1024, 0, 0, 0, ("xen"), 4181, node,
             ("\x7b\x7d"), []⟩) ∧
    get_available_resource ("total_memory : 8192\nfree_memory : 2048")
        ("cpu0\ncpu1\ncpu2\ncpu3") ("node1") =
      .ok ⟨4, 0, 8, 6, 0, 0, 0, ("xen"), 4181, ("node1"), ("\x7b\x7d"), []⟩ := by
  constructor
  · intro t f cpuOut node
    have hfold : foldExc parseMemLine (0, 0) (pySplitlines (memInfoOut t f)) =
        .ok ((t : Int), (f : Int)) := by
      rw [pySplitlines_memInfoOut,
        foldExc_cons_ok parseMemLine (0, 0) _ _ _ (parseMemLine_total_line t (0, 0)),
        foldExc_cons_ok parseMemLine _ _ _ _ (parseMemLine_free_line f _)]
      rfl
    exact get_available_resource_ok_of_fold (memInfoOut t f) cpuOut node
      (t : Int) (f : Int) hfold
  · decide

theorem pyJoinNl_cons_cons (a b : String) (t : List String) :
    pyJoinNl (a :: b :: t) = a ++ String.singleton nlChar ++ pyJoinNl (b :: t) := rfl

theorem toList_get_xl_config (i : InstanceSpec) :
    (get_xl_config i).toList =
      (("name = ").toList ++ sqChar :: (i.name.toList ++ [sqChar])) ++
        nlChar :: ((("memory = ").toList ++ toDec i.memory_mb) ++
          nlChar :: ((("vcpus = ").toList ++ toDec i.vcpus) ++
            nlChar :: (pyJoinNl ((xl_config_lines i).drop 3)).toList)) := by
  conv_lhs =>
    rw [get_xl_config, xl_config_lines, pyJoinNl_cons_cons, pyJoinNl_cons_cons,
      pyJoinNl_cons_cons]
  rw [xl_config_lines]
  simp [toList_append, toList_singleton, toList_mk, sqStr, natStr,
    List.append_assoc]

theorem findSome?_cons_some {α β : Type} (f : α → Option β) (a : α) (l : List α)
    (b : β) (h : f a = some b) : List.findSome? f (a :: l) = some b := by
  simp [List.findSome?, h]

theorem findSome?_cons_none {α β : Type} (f : α → Option β) (a : α) (l : List α)
    (h : f a = none) : List.findSome? f (a :: l) = List.findSome? f l := by
  simp [List.findSome?, h]

theorem beq_nlChar_of_ne (c : Char) (h : c ≠ nlChar) : (c == nlChar) = false := by
  simp [h]

theorem splitP_nl_config (i : InstanceSpec) (hname : nlChar ∉ i.name.toList) :
    splitP (fun c => c == nlChar) (get_xl_config i).toList =
      (("name = ").toList ++ sqChar :: (i.name.toList ++ [sqChar])) ::
        ((("memory = ").toList ++ toDec i.memory_mb) ::
          ((("vcpus = ").toList ++ toDec i.vcpus) ::
            splitP (fun c => c == nlChar)
              (pyJoinNl ((xl_config_lines i).drop 3)).toList)) := by
  have hlit0 : ∀ c ∈ ("name = ").toList, (c == nlChar) = false := by decide
  have h0 : ∀ c ∈ ("name = ").toList ++ sqChar :: (i.name.toList ++ [sqChar]),
      (c == nlChar) = false := by
    intro c hc
    rcases List.mem_append.mp hc with hc | hc
    · exact hlit0 c hc
    · rcases List.mem_cons.mp hc with hc | hc
      · rw [hc]; decide
      · rcases List.mem_append.mp hc with hc | hc
        · exact beq_nlChar_of_ne c (fun he => hname (he ▸ hc))
        · rcases List.mem_singleton.mp hc with hc
          rw [hc]; decide
  have hlit1 : ∀ c ∈ ("memory = ").toList, (c == nlChar) = false := by decide
  have h1 : ∀ c ∈ ("memory = ").toList ++ toDec i.memory_mb,
      (c == nlChar) = false := by
    intro c hc
    rcases List.mem_append.mp hc with hc | hc
    · exact hlit1 c hc
    · exact beq_eq_false_of_digit c (toDec_digits _ c hc) nlChar (by decide)
  have hlit2 : ∀ c ∈ ("vcpus = ").toList, (c == nlChar) = false := by decide
  have h2 : ∀ c ∈ ("vcpus = ").toList ++ toDec i.vcpus,
      (c == nlChar) = false := by
    intro c hc
    rcases List.mem_append.mp hc with hc | hc
    · exact hlit2 c hc
    · exact beq_eq_false_of_digit c (toDec_digits _ c hc) nlChar (by decide)
  rw [toList_get_xl_config,
    splitP_append_sep (fun c => c == nlChar) nlChar _ (by simp) _ h0,
    splitP_append_sep (fun c => c == nlChar) nlChar _ (by simp) _ h1,
    splitP_append_sep (fun c => c == nlChar) nlChar _ (by simp) _ h2]

theorem fieldValue_self (key : String) (w : List Char) :
    fieldValue key ((key.toList ++ (" = ").toList) ++ w) = some w := by
  rw [fieldValue, if_pos (startsWithL_append_self _ w), List.drop_left]

theorem fieldValue_head_ne (key : String) (line : List Char) (p x : Char)
    (ps xs : List Char) (hpre : key.toList ++ (" = ").toList = p :: ps)
    (hline : line = x :: xs) (hne : p ≠ x) :
    fieldValue key line = none := by
  rw [fieldValue, hpre, hline, if_neg]
  simp [startsWithL_cons_false p x ps xs hne]

theorem fieldValue_name_line0 (i : InstanceSpec) :
    fieldValue ("name")
      (("name = ").toList ++ sqChar :: (i.name.toList ++ [sqChar])) =
      some (sqChar :: (i.name.toList ++ [sqChar])) := by
  rw [show ("name = ").toList = ("name").toList ++ (" = ").toList from by decide]
  exact fieldValue_self ("name") _

theorem fieldValue_memory_line0 (i : InstanceSpec) :
    fieldValue ("memory")
      (("name = ").toList ++ sqChar :: (i.name.toList ++ [sqChar])) = none := by
  refine fieldValue_head_ne ("memory") _ (Char.ofNat 109) (Char.ofNat 110)
    (("emory = ").toList) (("ame = ").toList ++ sqChar :: (i.name.toList ++ [sqChar]))
    (by decide) ?_ (by decide)
  rw [show ("name = ").toList = Char.ofNat 110 :: ("ame = ").toList from by decide]
  rfl

theorem fieldValue_memory_line1 (i : InstanceSpec) :
    fieldValue ("memory") (("memory = ").toList ++ toDec i.memory_mb) =
      some (toDec i.memory_mb) := by
  rw [show ("memory = ").toList = ("memory").toList ++ (" = ").toList from by decide]
  exact fieldValue_self ("memory") _

theorem fieldValue_vcpus_line0 (i : InstanceSpec) :
    fieldValue ("vcpus")
      (("name = ").toList ++ sqChar :: (i.name.toList ++ [sqChar])) = none := by
  refine fieldValue_head_ne ("vcpus") _ (Char.ofNat 118) (Char.ofNat 110)
    (("cpus = ").toList) (("ame = ").toList ++ sqChar :: (i.name.toList ++ [sqChar]))
    (by decide) ?_ (by decide)
  rw [show ("name = ").toList = Char.ofNat 110 :: ("ame = ").toList from by decide]
  rfl

theorem fieldValue_vcpus_line1 (i : InstanceSpec) :
    fieldValue ("vcpus") (("memory = ").toList ++ toDec i.memory_mb) = none := by
  refine fieldValue_head_ne ("vcpus") _ (Char.ofNat 118) (Char.ofNat 109)
    (("cpus = ").toList) (("emory = ").toList ++ toDec i.memory_mb)
    (by decide) ?_ (by decide)
  rw [show ("memory = ").toList = Char.ofNat 109 :: ("emory = ").toList from by decide]
  rfl

theorem fieldValue_vcpus_line2 (i : InstanceSpec) :
    fieldValue ("vcpus") (("vcpus = ").toList ++ toDec i.vcpus) =
      some (toDec i.vcpus) := by
  rw [show ("vcpus = ").toList = ("vcpus").toList ++ (" = ").toList from by decide]
  exact fieldValue_self ("vcpus") _

theorem stripQuotesL_wrap (l : List Char) :
    stripQuotesL (sqChar :: (l ++ [sqChar])) = l := by
  rw [stripQuotesL, if_pos]
  · show (List.drop 1 (sqChar :: (l ++ [sqChar]))).dropLast = l
    simp
  · refine ⟨?_, rfl, ?_⟩
    · simp [List.length_append]
    · show (sqChar :: (l ++ [sqChar])).getLast? = some sqChar
      rw [show sqChar :: (l ++ [sqChar]) = (sqChar :: l) ++ [sqChar] from by
        simp [List.cons_append]]
      exact List.getLast?_concat _

/-- Counterexample to C5 as stated: a name containing a newline breaks the
round-trip — the synthesized artifact spreads the name field over two
lines, and parsing the name back fails to reproduce it. -/
theorem xl_config_roundtrip_claim_false :
    parseStrField (get_xl_config ⟨("a\nb"), ("u-1"), 512, 2⟩) ("name") ≠
      some ("a\nb") := by
  decide

/-- C5 amended: for every specification whose name contains no newline
character (quote characters and an arbitrary UUID are fine), synthesizing
the artifact and parsing the name, memory and vcpus fields back out
reproduces the specification's fields exactly; a newline inside the name
breaks the round-trip. -/
theorem xl_config_roundtrip :
    ∀ i : InstanceSpec, nlChar ∉ i.name.toList →
      parseStrField (get_xl_config i) ("name") = some i.name ∧
      parseNatField (get_xl_config i) ("memory") = some i.memory_mb ∧
      parseNatField (get_xl_config i) ("vcpus") = some i.vcpus := by
  intro i hname
  have hsplit := splitP_nl_config i hname
  refine ⟨?_, ?_, ?_⟩
  · rw [parseStrField, fieldRaw, hsplit,
      findSome?_cons_some _ _ _ _ (fieldValue_name_line0 i)]
    simp [stripQuotesL_wrap, mk_toList]
  · rw [parseNatField, fieldRaw, hsplit,
      findSome?_cons_none _ _ _ (fieldValue_memory_line0 i),
      findSome?_cons_some _ _ _ _ (fieldValue_memory_line1 i)]
    simp [readNat_toDec]
  · rw [parseNatField, fieldRaw, hsplit,
      findSome?_cons_none _ _ _ (fieldValue_vcpus_line0 i),
      findSome?_cons_none _ _ _ (fieldValue_vcpus_line1 i),
      findSome?_cons_some _ _ _ _ (fieldValue_vcpus_line2 i)]
    simp [readNat_toDec]

/-- Witness for C5 amended: a concrete round-trip, with a single-quote
character inside the instance name. -/
theorem xl_config_roundtrip_witness :
    nlChar ∉ (("vm") ++ sqStr ++ ("1")).toList ∧
    (parseStrField (get_xl_config ⟨("vm") ++ sqStr ++ ("1"), ("u-1"), 512, 2⟩)
        ("name") = some (("vm") ++ sqStr ++ ("1")) ∧
      parseNatField (get_xl_config ⟨("vm") ++ sqStr ++ ("1"), ("u-1"), 512, 2⟩)
        ("memory") = some 512 ∧
      parseNatField (get_xl_config ⟨("vm") ++ sqStr ++ ("1"), ("u-1"), 512, 2⟩)
        ("vcpus") = some 2) :=
  ⟨by decide,
   xl_config_roundtrip ⟨("vm") ++ sqStr ++ ("1"), ("u-1"), 512, 2⟩ (by decide)⟩
